import Mathlib

/-!
Verification of the bloggy note-publishing tool (src/bloggy.py).

The development shallowly embeds the pure core of the script: Python string
helpers (`splitlines`, `strip`, `lower`, `replace`, `startswith`, `in`),
the frontmatter parser `parse_frontmatter`, the classifiers `is_public_note`
and `has_now_tag`, the per-line markdown-link scan (the regex
`\[[^\]]*\]\(([^)]*)\)` applied with `re.findall`), the body detection and
asset extraction of `extract_assets_from_file`, the whitelist aggregation of
`collect_public_assets`, and the pure filename/path computations of
`link_public_assets` and `link_now_posts`.  File I/O and symlink syscalls are
glue and are abstracted: functions take file contents as `String`, the
directory walk becomes a `List String` of note contents.

Definitions suffixed `Spec` or `Claim` are NOT translations of the source:
they follow the words of the specification (or of a claim under test) and
are compared against the source-derived definitions in the theorems below.
-/

namespace Bloggy

/-! ## Python string primitives -/

/-- Python whitespace for `str.strip()`, restricted to the ASCII whitespace
characters that can occur in a markdown line (space, tab, newline, carriage
return, vertical tab, form feed).  Exotic Unicode whitespace is not
modelled. -/
def pyIsSpace (c : Char) : Bool :=
  c == ' ' || c == '\t' || c == '\n' || c == '\x0d' || c == '\x0b' || c == '\x0c'

/-- Python `str.strip()`: drop leading and trailing whitespace. -/
def pyStrip (s : String) : String :=
  String.mk (((s.toList.dropWhile pyIsSpace).reverse.dropWhile pyIsSpace).reverse)

/-- Python `str.lower()`, restricted to ASCII letters (the only case the
script's inputs exercise). -/
def pyLower (s : String) : String :=
  String.mk (s.toList.map Char.toLower)

/-- Python line-break characters recognised by `str.splitlines()`. -/
def pyIsLineBreak (c : Char) : Bool :=
  c == '\n' || c == '\x0d' || c == '\x0b' || c == '\x0c' ||
  c == '\x1c' || c == '\x1d' || c == '\x1e' || c == '\x85' ||
  c == '\u2028' || c == '\u2029'

/-- Helper for `splitlines`: accumulates the current line (reversed). -/
def splitlinesAux : List Char → List Char → List String
  | [], acc => if acc.isEmpty then [] else [String.mk acc.reverse]
  | '\x0d' :: '\n' :: rest, acc => String.mk acc.reverse :: splitlinesAux rest []
  | c :: rest, acc =>
    if pyIsLineBreak c then String.mk acc.reverse :: splitlinesAux rest []
    else splitlinesAux rest (c :: acc)

/-- Python `str.splitlines()`: split at line breaks (`\r\n` counts once), with
no trailing empty line when the text ends in a line break. -/
def splitlines (s : String) : List String :=
  splitlinesAux s.toList []

/-- Python `str.startswith(pat)` on character lists (`leadsWith pat s`). -/
def leadsWith : List Char → List Char → Bool
  | [], _ => true
  | _ :: _, [] => false
  | p :: ps, c :: cs => p == c && leadsWith ps cs

/-- Python `pat in s` (substring containment) on character lists:
`hasSub s pat`. -/
def hasSub : List Char → List Char → Bool
  | [], pat => pat.isEmpty
  | l@(_ :: t), pat => leadsWith pat l || hasSub t pat

/-- Python `pat in s` on strings. -/
def strHasSub (s pat : String) : Bool := hasSub s.toList pat.toList

/-- Python `s.startswith(pat)` on strings. -/
def strLeads (s pat : String) : Bool := leadsWith pat.toList s.toList

/-- Python `s.replace(pat, rep)`: scan left to right; where `pat` begins,
emit `rep` and resume after the occurrence, otherwise keep one character.
`fuel` bounds the number of scan steps; `s.length` always suffices, since
every step consumes at least one character (an empty `pat` is never
replaced here, matching the script's only call site `pat = "assets/"`). -/
def pyReplaceGen (pat rep : List Char) : Nat → List Char → List Char
  | _, [] => []
  | 0, s => s
  | fuel + 1, c :: cs =>
    if !pat.isEmpty && leadsWith pat (c :: cs) then
      rep ++ pyReplaceGen pat rep fuel (List.drop (pat.length - 1) cs)
    else c :: pyReplaceGen pat rep fuel cs

/-- Python `s.replace(pat, rep)` on strings. -/
def pyReplace (s pat rep : String) : String :=
  String.mk (pyReplaceGen pat.toList rep.toList s.toList.length s.toList)

/-- Python `dict` assignment `d[k] = v`: overwrite in place if the key is
present, else append (insertion order preserved). -/
def dictInsert (d : List (String × String)) (k v : String) :
    List (String × String) :=
  if d.any (fun p => p.1 == k) then
    d.map (fun p => if p.1 == k then (k, v) else p)
  else d ++ [(k, v)]

/-- Python `d.get(k)` returning an optional value. -/
def dictFind (d : List (String × String)) (k : String) : Option String :=
  (d.find? (fun p => p.1 == k)).map (fun p => p.2)

/-- Python `d.get(k, dflt)`. -/
def dictGet (d : List (String × String)) (k dflt : String) : String :=
  (dictFind d k).getD dflt

/-! ## Frontmatter parsing (bloggy.py `parse_frontmatter`) -/

/-- The scan `for i, line in enumerate(lines[1:], 1): if line.strip() == "---":
end_idx = i; break` of `parse_frontmatter`: first index (counting from `i`)
whose stripped line is `---`. -/
def findSepFrom : List String → Nat → Option Nat
  | [], _ => none
  | l :: ls, i => if pyStrip l == "---" then some i else findSepFrom ls (i + 1)

/-- One iteration of the frontmatter loop: `if ":" in line: key, value =
line.split(":", 1); frontmatter[key.strip()] = value.strip()`. -/
def parseFmLine (d : List (String × String)) (line : String) :
    List (String × String) :=
  if strHasSub line ":" then
    let k := String.mk (line.toList.takeWhile (fun c => c != ':'))
    let v := String.mk ((line.toList.dropWhile (fun c => c != ':')).drop 1)
    dictInsert d (pyStrip k) (pyStrip v)
  else d

/-- bloggy.py `parse_frontmatter`: reject unless the raw text starts with the
characters `---`; find the first later line stripping to `---`; fold the
key/value lines strictly between the two boundaries. -/
def parse_frontmatter (content : String) : List (String × String) :=
  if leadsWith "---".toList content.toList then
    match findSepFrom ((splitlines content).drop 1) 1 with
    | none => []
    | some endIdx =>
      (((splitlines content).drop 1).take (endIdx - 1)).foldl parseFmLine []
  else []

/-! ## Classification (bloggy.py `is_public_note`, `has_now_tag`) -/

/-- bloggy.py `is_public_note` on file content:
`frontmatter.get("public", "").lower() == "true"`. -/
def is_public_note (content : String) : Bool :=
  pyLower (dictGet (parse_frontmatter content) "public" "") == "true"

/-- bloggy.py `has_now_tag` on file content:
`"now" in frontmatter.get("tags", "").lower()`. -/
def has_now_tag (content : String) : Bool :=
  strHasSub (pyLower (dictGet (parse_frontmatter content) "tags" "")) "now"

/-! ## Forward-link extraction (bloggy.py `extract_assets_from_file`) -/

/-- One attempt of the regex `\[[^\]]*\]\(([^)]*)\)` at the head of the
input: a `[`, a maximal run of non-`]` characters, `]`, `(`, a maximal run
of non-`)` characters (the capture group), `)`.  Returns the captured target
and the characters after the match.  The character classes exclude the
closing delimiter, so the greedy runs never backtrack and the match is
deterministic. -/
def matchLink : List Char → Option (String × List Char)
  | '[' :: rest =>
    match rest.dropWhile (fun c => c != ']') with
    | ']' :: '(' :: rest2 =>
      match rest2.dropWhile (fun c => c != ')') with
      | ')' :: rest3 => some (String.mk (rest2.takeWhile (fun c => c != ')')), rest3)
      | _ => none
    | _ => none
  | _ => none

/-- The scan loop of `re.findall`: try a match at the current position; on
success emit the capture and resume after the match, on failure advance one
character.  `fuel` bounds the number of scan steps; `l.length` always
suffices (each step consumes at least one character). -/
def findLinksAux : Nat → List Char → List String
  | 0, _ => []
  | _ + 1, [] => []
  | n + 1, c :: cs =>
    match matchLink (c :: cs) with
    | some (t, rest) => t :: findLinksAux n rest
    | none => findLinksAux n cs

/-- bloggy.py `re.findall(LINK_REGEX, line)`: all capture-group-1 targets of
non-overlapping matches, left to right. -/
def reFindAll (line : String) : List String :=
  findLinksAux line.toList.length line.toList

/-- The body-boundary loop of `extract_assets_from_file` over
`enumerate(lines)`: counts lines stripping to `---` and returns the index at
which the count reaches two, or `0` when it never does (`end_idx` keeps its
initial value `0`). -/
def findEndIdx : List (Nat × String) → Nat → Nat
  | [], _ => 0
  | (i, line) :: rest, cnt =>
    if pyStrip line == "---" then
      if cnt + 1 == 2 then i else findEndIdx rest (cnt + 1)
    else findEndIdx rest cnt

/-- bloggy.py body selection:
`lines[end_idx + 1:] if end_idx > 0 else lines`. -/
def bodyLines (lines : List String) : List String :=
  if findEndIdx lines.enum 0 > 0 then lines.drop (findEndIdx lines.enum 0 + 1)
  else lines

/-- Per-line filtering of `extract_assets_from_file`: keep the regex targets
that contain the literal substring `assets`. -/
def lineAssetLinks (line : String) : List String :=
  (reFindAll line).filter (fun p => strHasSub p "assets")

/-- bloggy.py `extract_assets_from_file` on file content: select the body
lines, then append, line by line and match by match, every regex target
containing `assets`. -/
def extract_assets_from_file (content : String) : List String :=
  (bodyLines (splitlines content)).flatMap lineAssetLinks

/-! ## Whitelist aggregation (bloggy.py `collect_public_assets`) -/

/-- Python string comparison `a <= b`: lexicographic by code point.  Stated on
character lists so that it evaluates by kernel reduction; `strLeB_iff` below
identifies it with Mathlib's order on `String`. -/
def charListLe : List Char → List Char → Bool
  | [], _ => true
  | _ :: _, [] => false
  | a :: as, b :: bs =>
    if a.toNat < b.toNat then true
    else if b.toNat < a.toNat then false
    else charListLe as bs

/-- Python `a <= b` on strings. -/
def strLeB (a b : String) : Bool := charListLe a.toList b.toList

/-- bloggy.py `collect_public_assets`, with the directory walk abstracted as
the list of note contents: extract assets of every public note, union into a
set (`all_public_assets.update(assets)`), and return
`sorted(list(all_public_assets))` — the lexicographically sorted list of the
distinct elements. -/
def collect_public_assets (notes : List String) : List String :=
  List.insertionSort (fun a b => strLeB a b = true)
    ((notes.filter is_public_note).flatMap extract_assets_from_file).dedup

/-! ## Materialization path computations (bloggy.py `link_public_assets`,
`link_now_posts`) -/

/-- bloggy.py `asset_path.replace("assets/", "")`. -/
def replaceAssets (p : String) : String := pyReplace p "assets/" ""

/-- bloggy.py `source_assets_dir / asset_path.replace("assets/", "")` with
path joining modelled as `/`-concatenation. -/
def assetSourcePath (sourceAssetsDir p : String) : String :=
  sourceAssetsDir ++ "/" ++ replaceAssets p

/-- bloggy.py `target_dir / asset_path.replace("assets/", "")`. -/
def assetTargetPath (targetDir p : String) : String :=
  targetDir ++ "/" ++ replaceAssets p

/-- bloggy.py `link_now_posts` target filename: keep the filename when it
starts with `"20"` or `"19"`, is at least 10 characters long and has `-` at
positions 4 and 7; otherwise prefix `date_` when the frontmatter `date`
value is non-empty (Python truthiness of `date_str`). -/
def nowTargetName (filename content : String) : String :=
  if (leadsWith "20".toList filename.toList || leadsWith "19".toList filename.toList)
      && decide (filename.toList.length ≥ 10)
      && filename.toList.getD 4 ' ' == '-'
      && filename.toList.getD 7 ' ' == '-' then
    filename
  else
    if dictGet (parse_frontmatter content) "date" "" != "" then
      dictGet (parse_frontmatter content) "date" "" ++ "_" ++ filename
    else filename

/-! ## Specification-side definitions, for comparison with the code

The following definitions are NOT derived from bloggy.py: each follows the
words of the specification or of a claim under test. -/

/-- Claim C1's reading of asset stripping: remove one LEADING `assets/`
segment only; occurrences elsewhere are left in place. -/
def stripLeadingAssetsClaim (p : String) : String :=
  if strLeads p "assets/" then String.mk (p.toList.drop 7) else p

/-- Claim C2's filename condition: a 4-DIGIT year-looking prefix, `-` at
positions 4 and 7, length at least 10. -/
def nowNameClaimCond (filename : String) : Bool :=
  (filename.toList.take 4).all Char.isDigit
    && decide (filename.toList.length ≥ 10)
    && filename.toList.getD 4 ' ' == '-'
    && filename.toList.getD 7 ' ' == '-'

/-- Claim C2's filename rule, built from the claim's words: keep a
`YYYY-MM-DD`-looking filename; otherwise prefix `date` and an underscore
whenever the `date` frontmatter field is present. -/
def nowTargetNameClaim (filename content : String) : String :=
  if nowNameClaimCond filename then filename
  else
    match dictFind (parse_frontmatter content) "date" with
    | some d => d ++ "_" ++ filename
    | none => filename

/-- Amended now-post filename rule, following the code: the prefix test is
the literal two-character test `startswith(("20", "19"))`, and a `date`
value that is present but empty behaves like an absent one. -/
def nowTargetNameSpec (filename content : String) : String :=
  if (String.mk (filename.toList.take 2) == "20"
        || String.mk (filename.toList.take 2) == "19")
      && decide (filename.toList.length ≥ 10)
      && filename.toList.getD 4 ' ' == '-'
      && filename.toList.getD 7 ' ' == '-' then
    filename
  else
    match dictFind (parse_frontmatter content) "date" with
    | some d => if d == "" then filename else d ++ "_" ++ filename
    | none => filename

/-- The specification's body rule (section 4.4), stated declaratively: the
body starts after the SECOND line whose stripped content is `---`; with
fewer than two such lines the whole text is the body. -/
def bodyLinesSpec (lines : List String) : List String :=
  match (lines.enum.filter (fun p => pyStrip p.2 == "---"))[1]? with
  | some p => lines.drop (p.1 + 1)
  | none => lines

/-- The specification's reference frontmatter algorithm (section 4.1), for a
text whose opening marker has been checked: locate the first closing line
stripping to `---` after the first line (none ⇒ empty mapping), then fold
the lines strictly between the boundaries. -/
def refParseSpec (content : String) : List (String × String) :=
  match ((splitlines content).drop 1).findIdx? (fun l => pyStrip l == "---") with
  | none => []
  | some j => (((splitlines content).drop 1).take j).foldl parseFmLine []

/-! ## Sanity examples -/

example : parse_frontmatter "---\npublic: true\n---\nbody" =
    [("public", "true")] := by decide
example : parse_frontmatter "no frontmatter" = [] := by decide
example : parse_frontmatter "---\npublic: true\nnever closed" = [] := by decide
example : parse_frontmatter "---extra\npublic: true\n--- \nbody" =
    [("public", "true")] := by decide
example : is_public_note "---\npublic: TRUE\n---\n" = true := by decide
example : is_public_note "---\npublic: yes\n---\n" = false := by decide
example : has_now_tag "---\ntags: unknown\n---\n" = true := by decide
example : splitlines "a\r\nb\nc\n" = ["a", "b", "c"] := by decide
example : reFindAll "[img](assets/a.png) and [site](https://example.com)" =
    ["assets/a.png", "https://example.com"] := by decide
example : extract_assets_from_file
    "[img](assets/a.png) and [site](https://example.com)" =
    ["assets/a.png"] := by decide
example : extract_assets_from_file "---\ntitle: x\n---\n[a](assets/x.png)" =
    ["assets/x.png"] := by decide
example : replaceAssets "assets/sub/assets/img.png" = "sub/img.png" := by decide
example : nowTargetName "reflections.md" "---\ndate: 2024-03-01\n---\n" =
    "2024-03-01_reflections.md" := by decide
example : nowTargetName "2024-03-01-reflections.md" "---\ndate: 2020-01-01\n---\n" =
    "2024-03-01-reflections.md" := by decide
example : nowTargetName "20ab-cd-ef.md" "---\ndate: 2024-01-01\n---\n" =
    "20ab-cd-ef.md" := by decide
example : collect_public_assets
    ["---\npublic: true\n---\n[a](assets/b.png)\n[a](assets/a.png)",
     "---\npublic: true\n---\n[a](assets/a.png)",
     "---\ntitle: x\n---\n[a](assets/c.png)"] =
    ["assets/a.png", "assets/b.png"] := by decide

/-! ## Supporting lemmas: the string comparator agrees with Mathlib's order -/

theorem charListLe_iff_not_lex : ∀ (as bs : List Char),
    charListLe as bs = true ↔ ¬ List.Lex (fun x y : Char => x < y) bs as
  | [], [] => iff_of_true rfl (fun h => by cases h)
  | [], _ :: _ => iff_of_true rfl (fun h => by cases h)
  | a :: as, [] => iff_of_false (by simp [charListLe])
      (fun h => h (List.Lex.nil))
  | a :: as, b :: bs => by
    have hlt : ∀ (x y : Char), x < y ↔ x.toNat < y.toNat := fun x y => Iff.rfl
    by_cases hab : a.toNat < b.toNat
    · rw [charListLe, if_pos hab]
      refine iff_of_true rfl (fun h => ?_)
      cases h with
      | cons h => exact Nat.lt_irrefl _ hab
      | rel h => exact Nat.lt_asymm hab ((hlt b a).mp h)
    · by_cases hba : b.toNat < a.toNat
      · rw [charListLe, if_neg hab, if_pos hba]
        refine iff_of_false (by simp) (fun h => h ?_)
        exact List.Lex.rel ((hlt b a).mpr hba)
      · have hchar : a = b := le_antisymm
          (le_of_not_lt (fun h => hba ((hlt b a).mp h)))
          (le_of_not_lt (fun h => hab ((hlt a b).mp h)))
        rw [charListLe, if_neg hab, if_neg hba,
          charListLe_iff_not_lex as bs]
        subst hchar
        constructor
        · intro h hc
          cases hc with
          | cons h2 => exact h h2
          | rel h2 => exact Nat.lt_irrefl _ ((hlt a a).mp h2)
        · exact fun h hc => h (List.Lex.cons hc)

/-- The executable comparator is Mathlib's linear order on `String`. -/
theorem strLeB_iff (a b : String) : strLeB a b = true ↔ a ≤ b := by
  have h1 : a ≤ b ↔ ¬ b < a := not_lt.symm
  rw [h1, String.lt_iff_toList_lt]
  exact charListLe_iff_not_lex a.toList b.toList

instance : IsTotal String (fun a b => strLeB a b = true) :=
  ⟨fun a b => by
    rw [strLeB_iff, strLeB_iff]
    exact le_total a b⟩

instance : IsTrans String (fun a b => strLeB a b = true) :=
  ⟨fun a b c => by
    simp only [strLeB_iff]
    exact le_trans⟩

instance : IsAntisymm String (fun a b => strLeB a b = true) :=
  ⟨fun a b => by
    simp only [strLeB_iff]
    exact le_antisymm⟩

/-! ## Supporting lemmas: substring predicates -/

theorem leadsWith_iff : ∀ (p l : List Char),
    leadsWith p l = true ↔ ∃ l2, l = p ++ l2
  | [], l => iff_of_true rfl ⟨l, rfl⟩
  | p :: ps, [] => iff_of_false (by simp [leadsWith])
      (fun ⟨l2, h⟩ => List.noConfusion h)
  | p :: ps, c :: cs => by
    rw [leadsWith, Bool.and_eq_true, leadsWith_iff ps cs]
    constructor
    · rintro ⟨hpc, l2, hcs⟩
      refine ⟨l2, ?_⟩
      rw [beq_iff_eq] at hpc
      simp [hpc, hcs]
    · rintro ⟨l2, heq⟩
      injection heq with h1 h2
      exact ⟨beq_iff_eq.mpr h1.symm, l2, h2⟩

theorem hasSub_iff : ∀ (l p : List Char),
    hasSub l p = true ↔ ∃ l1 l2, l = l1 ++ p ++ l2
  | [], p => by
    rw [hasSub]
    constructor
    · intro h
      exact ⟨[], [], by simp [List.isEmpty_iff.mp h]⟩
    · rintro ⟨l1, l2, h⟩
      have := (List.append_eq_nil.mp (List.append_eq_nil.mp h.symm).1).2
      simp [List.isEmpty_iff, this]
  | c :: t, p => by
    rw [hasSub, Bool.or_eq_true, leadsWith_iff p (c :: t), hasSub_iff t p]
    constructor
    · rintro (⟨l2, h⟩ | ⟨l1, l2, h⟩)
      · exact ⟨[], l2, by simp [h]⟩
      · exact ⟨c :: l1, l2, by simp [h]⟩
    · rintro ⟨l1, l2, heq⟩
      cases l1 with
      | nil => exact Or.inl ⟨l2, by simpa using heq⟩
      | cons a l1 =>
        injection heq with h1 h2
        exact Or.inr ⟨l1, l2, h2⟩

theorem leadsWith_take : ∀ (p l : List Char),
    leadsWith p l = true ↔ l.take p.length = p
  | [], l => iff_of_true rfl (by simp)
  | p :: ps, [] => iff_of_false (by simp [leadsWith]) (by simp)
  | p :: ps, c :: cs => by
    rw [leadsWith, Bool.and_eq_true, leadsWith_take ps cs]
    simp only [List.length_cons, List.take_succ_cons, List.cons.injEq]
    constructor
    · rintro ⟨h1, h2⟩
      exact ⟨(beq_iff_eq.mp h1).symm, h2⟩
    · rintro ⟨h1, h2⟩
      exact ⟨beq_iff_eq.mpr h1.symm, h2⟩

/-! ## Claim C6 -/

/-- Claim C6 as stated is FALSE: the opening test is a raw prefix test, not a
whole-line test.  On a file whose first line is `---extra` (not exactly
`---`), `parse_frontmatter` does not return an empty mapping: it accepts the
opening marker and parses the block. -/
theorem C6_counterexample :
    (splitlines "---extra\npublic: true\n---\nbody").head? = some "---extra"
    ∧ "---extra" ≠ "---"
    ∧ parse_frontmatter "---extra\npublic: true\n---\nbody" = [("public", "true")] :=
  ⟨by decide, by decide, by decide⟩

/-- Claim C6, amended: a frontmatter block is recognized only when the raw
text begins with the three CHARACTERS `---` (a first line such as
`---extra` still opens a block); for every text not beginning with `---`,
`parse_frontmatter` returns the empty mapping. -/
theorem C6_thm : ∀ (content : String),
    leadsWith "---".toList content.toList = false →
    parse_frontmatter content = [] := by
  intro content h
  simp only [parse_frontmatter, h, Bool.false_eq_true, if_false]

/-- Witness for C6: the amended theorem applied to a concrete file. -/
theorem C6_witness :
    leadsWith "---".toList "hello\nworld".toList = false
    ∧ parse_frontmatter "hello\nworld" = [] :=
  ⟨by decide, C6_thm "hello\nworld" (by decide)⟩

/-! ## Claim C8 -/

/-- Claim C8: `is_public_note` returns true iff the parsed frontmatter has a
`public` key whose value, lower-cased, is exactly `true`; in particular
`TRUE` ⇒ true, `1` ⇒ false, `yes` ⇒ false, absent key ⇒ false. -/
theorem C8_thm : ∀ (content : String),
    (is_public_note content = true ↔
      ∃ v, dictFind (parse_frontmatter content) "public" = some v
        ∧ pyLower v = "true")
    ∧ is_public_note "---\npublic: TRUE\n---\n" = true
    ∧ is_public_note "---\npublic: 1\n---\n" = false
    ∧ is_public_note "---\npublic: yes\n---\n" = false
    ∧ is_public_note "---\ntitle: x\n---\n" = false := by
  intro content
  refine ⟨?_, by decide, by decide, by decide, by decide⟩
  unfold is_public_note dictGet
  cases h : dictFind (parse_frontmatter content) "public" with
  | none =>
    constructor
    · intro hx
      exact absurd hx (by decide)
    · rintro ⟨v, hv, _⟩
      exact Option.noConfusion hv
  | some v =>
    simp only [Option.getD_some]
    constructor
    · intro hx
      exact ⟨v, rfl, beq_iff_eq.mp hx⟩
    · rintro ⟨w, hw, hlow⟩
      injection hw with hw
      rw [hw]
      exact beq_iff_eq.mpr hlow

/-! ## Claim C9 -/

/-- Claim C9: `has_now_tag` returns true iff the lower-cased `tags` value
contains the substring `now` anywhere; `now, writing` ⇒ true, `unknown` ⇒
true, `later` ⇒ false, absent key ⇒ false. -/
theorem C9_thm : ∀ (content : String),
    (has_now_tag content = true ↔
      ∃ l1 l2, (pyLower (dictGet (parse_frontmatter content) "tags" "")).toList
        = l1 ++ "now".toList ++ l2)
    ∧ has_now_tag "---\ntags: now, writing\n---\n" = true
    ∧ has_now_tag "---\ntags: unknown\n---\n" = true
    ∧ has_now_tag "---\ntags: later\n---\n" = false
    ∧ has_now_tag "---\ntitle: x\n---\n" = false := by
  intro content
  refine ⟨?_, by decide, by decide, by decide, by decide⟩
  unfold has_now_tag strHasSub
  exact hasSub_iff _ _

/-! ## Claim C7 -/

theorem findSepFrom_eq : ∀ (ls : List String) (i : Nat),
    findSepFrom ls i = List.findIdx? (fun l => pyStrip l == "---") ls i
  | [], _ => rfl
  | l :: ls, i => by
    rw [findSepFrom, List.findIdx?_cons]
    by_cases h : (pyStrip l == "---") = true
    · simp [h]
    · simp [h, findSepFrom_eq ls (i + 1)]

/-- Claim C7: on a text whose opening marker is present, `parse_frontmatter`
follows the reference algorithm: empty mapping when no closing line strips
to `---` after the first line, otherwise a fold over the lines strictly
between the boundaries that splits on the first colon only, trims key and
value, lets later duplicates overwrite, and skips colon-less lines.  The
closed conjuncts exercise duplicate overwrite, colon-less skipping and
first-colon splitting with trimming. -/
theorem C7_thm :
    (∀ (content : String), strLeads content "---" = true →
      parse_frontmatter content = refParseSpec content)
    ∧ parse_frontmatter "---\nk: 1\nk: 2\n---\n" = [("k", "2")]
    ∧ parse_frontmatter "---\nno colon here\nk: v\n---\n" = [("k", "v")]
    ∧ parse_frontmatter "---\n k :  a:b \n---\n" = [("k", "a:b")] := by
  refine ⟨?_, by decide, by decide, by decide⟩
  intro content h
  unfold parse_frontmatter refParseSpec
  rw [if_pos (show leadsWith "---".toList content.toList = true from h)]
  rw [findSepFrom_eq, List.findIdx?_succ]
  cases List.findIdx? (fun l => pyStrip l == "---") ((splitlines content).drop 1) with
  | none => rfl
  | some j => simp

/-- Witness for C7: the equivalence applied to a concrete note. -/
theorem C7_witness :
    strLeads "---\na: 1\nb: 2\n---\nbody" "---" = true
    ∧ parse_frontmatter "---\na: 1\nb: 2\n---\nbody"
        = refParseSpec "---\na: 1\nb: 2\n---\nbody"
    ∧ refParseSpec "---\na: 1\nb: 2\n---\nbody" = [("a", "1"), ("b", "2")] :=
  ⟨by decide, C7_thm.1 "---\na: 1\nb: 2\n---\nbody" (by decide), by decide⟩

/-! ## Claim C2 -/

/-- Claim C2 as stated is FALSE: the code's prefix test is
`startswith(("20", "19"))`, not a 4-digit test.  The filename
`20ab-cd-ef.md` has no 4-digit prefix, so the claim's rule prefixes the
frontmatter date, but the code links it unchanged. -/
theorem C2_counterexample :
    nowTargetName "20ab-cd-ef.md" "---\ndate: 2024-01-01\n---\n"
      = "20ab-cd-ef.md"
    ∧ nowTargetNameClaim "20ab-cd-ef.md" "---\ndate: 2024-01-01\n---\n"
      = "2024-01-01_20ab-cd-ef.md"
    ∧ nowNameClaimCond "20ab-cd-ef.md" = false :=
  ⟨by decide, by decide, by decide⟩

theorem nowElseBranch_eq (filename content : String) :
    (if dictGet (parse_frontmatter content) "date" "" != "" then
      dictGet (parse_frontmatter content) "date" "" ++ "_" ++ filename
     else filename)
    = match dictFind (parse_frontmatter content) "date" with
      | some d => if d == "" then filename else d ++ "_" ++ filename
      | none => filename := by
  unfold dictGet
  cases dictFind (parse_frontmatter content) "date" with
  | none => rfl
  | some v =>
    simp only [Option.getD_some]
    by_cases h : v = ""
    · simp [h]
    · simp [h, bne_iff_ne]

/-- Claim C2, amended: the already-dated test keeps a filename that starts
with the two characters `20` or `19` (digits are not checked), is at least
10 characters long and has `-` at positions 4 and 7; otherwise the filename
is prefixed with the `date` frontmatter value and an underscore exactly when
that value is present and non-empty.  The claim's two examples hold. -/
theorem C2_thm :
    (∀ (filename content : String),
      nowTargetName filename content = nowTargetNameSpec filename content)
    ∧ nowTargetName "reflections.md" "---\ndate: 2024-03-01\n---\n"
        = "2024-03-01_reflections.md"
    ∧ nowTargetName "2024-03-01-reflections.md" "---\ndate: 2024-03-01\n---\n"
        = "2024-03-01-reflections.md" := by
  refine ⟨?_, by decide, by decide⟩
  intro filename content
  unfold nowTargetName nowTargetNameSpec
  have hcond : (leadsWith "20".toList filename.toList
        || leadsWith "19".toList filename.toList)
      = (String.mk (filename.toList.take 2) == "20"
        || String.mk (filename.toList.take 2) == "19") := by
    have h20 : leadsWith "20".toList filename.toList
        = (String.mk (filename.toList.take 2) == "20") := by
      rw [Bool.eq_iff_iff, leadsWith_take, beq_iff_eq]
      constructor
      · intro hx
        rw [show ("20".toList.length) = 2 from rfl] at hx
        rw [← String.toList_inj]
        exact hx
      · intro hx
        rw [show ("20".toList.length) = 2 from rfl]
        exact String.toList_inj.mpr hx
    have h19 : leadsWith "19".toList filename.toList
        = (String.mk (filename.toList.take 2) == "19") := by
      rw [Bool.eq_iff_iff, leadsWith_take, beq_iff_eq]
      constructor
      · intro hx
        rw [show ("19".toList.length) = 2 from rfl] at hx
        rw [← String.toList_inj]
        exact hx
      · intro hx
        rw [show ("19".toList.length) = 2 from rfl]
        exact String.toList_inj.mpr hx
    rw [h20, h19]
  rw [hcond, nowElseBranch_eq filename content]

/-! ## Claim C1 -/

theorem pyReplaceGen_congr (pat rep : List Char) :
    ∀ (m n : Nat) (s : List Char), s.length ≤ m → s.length ≤ n →
      pyReplaceGen pat rep m s = pyReplaceGen pat rep n s
  | m, n, [], _, _ => by cases m <;> cases n <;> rfl
  | 0, _, c :: cs, hm, _ => absurd hm (by simp)
  | _ + 1, 0, c :: cs, _, hn => absurd hn (by simp)
  | m + 1, n + 1, c :: cs, hm, hn => by
    simp only [List.length_cons, Nat.add_le_add_iff_right] at hm hn
    cases h : (!pat.isEmpty && leadsWith pat (c :: cs)) with
    | true =>
      simp only [pyReplaceGen, h, if_true]
      congr 1
      exact pyReplaceGen_congr pat rep m n _
        (le_trans (by simp) hm)
        (le_trans (by simp) hn)
    | false =>
      simp only [pyReplaceGen, h, Bool.false_eq_true, if_false]
      congr 1
      exact pyReplaceGen_congr pat rep m n cs hm hn

theorem pyReplaceGen_of_hasSub_false (pat rep : List Char) :
    ∀ (fuel : Nat) (s : List Char), hasSub s pat = false →
      pyReplaceGen pat rep fuel s = s
  | fuel, [], _ => by cases fuel <;> rfl
  | 0, c :: cs, _ => rfl
  | fuel + 1, c :: cs, h => by
    rw [hasSub, Bool.or_eq_false_iff] at h
    simp only [pyReplaceGen, h.1, Bool.and_false, Bool.false_eq_true, if_false]
    rw [pyReplaceGen_of_hasSub_false pat rep fuel cs h.2]

theorem pyReplaceGen_head_match (pc : Char) (pcs rep l2 : List Char) (fuel : Nat) :
    pyReplaceGen (pc :: pcs) rep (fuel + 1) (pc :: (pcs ++ l2))
      = rep ++ pyReplaceGen (pc :: pcs) rep fuel l2 := by
  have hl : leadsWith (pc :: pcs) (pc :: (pcs ++ l2)) = true :=
    (leadsWith_iff _ _).mpr ⟨l2, by simp⟩
  simp only [pyReplaceGen, hl, List.isEmpty_cons, Bool.not_false, Bool.and_self,
    if_true, List.length_cons, Nat.add_sub_cancel, List.drop_left]

theorem pyReplaceGen_head_miss (pat rep : List Char) (c : Char) (cs : List Char)
    (fuel : Nat) (h : leadsWith pat (c :: cs) = false) :
    pyReplaceGen pat rep (fuel + 1) (c :: cs) = c :: pyReplaceGen pat rep fuel cs := by
  simp only [pyReplaceGen, h, Bool.and_false, Bool.false_eq_true, if_false]

theorem replaceAssets_append (p : String) (l2 : List Char)
    (h : p.toList = "assets/".toList ++ l2) :
    replaceAssets p = replaceAssets (String.mk l2) := by
  show String.mk (pyReplaceGen "assets/".toList "".toList p.toList.length p.toList)
      = String.mk (pyReplaceGen "assets/".toList "".toList l2.length l2)
  rw [h]
  have hsplit : "assets/".toList ++ l2
      = 'a' :: (['s', 's', 'e', 't', 's', '/'] ++ l2) := rfl
  rw [hsplit]
  rw [show ("assets/".toList : List Char) = 'a' :: ['s', 's', 'e', 't', 's', '/'] from rfl]
  rw [pyReplaceGen_congr ('a' :: ['s', 's', 'e', 't', 's', '/']) "".toList
    ('a' :: (['s', 's', 'e', 't', 's', '/'] ++ l2)).length
    ((['s', 's', 'e', 't', 's', '/'] ++ l2).length + 1)
    ('a' :: (['s', 's', 'e', 't', 's', '/'] ++ l2)) (le_refl _)
    (by simp only [List.length_cons, List.length_append]; omega)]
  rw [pyReplaceGen_head_match 'a' ['s', 's', 'e', 't', 's', '/'] "".toList l2]
  rw [pyReplaceGen_congr ('a' :: ['s', 's', 'e', 't', 's', '/']) "".toList
    ((['s', 's', 'e', 't', 's', '/'] ++ l2).length) l2.length l2
    (by simp only [List.length_cons, List.length_append]; omega) (le_refl _)]
  rfl

/-- Claim C1 as stated is FALSE: Python `str.replace` removes EVERY
occurrence of `assets/`, not only a leading segment.  On
`assets/sub/assets/img.png` the code produces `sub/img.png`, while the
claim's leading-only strip produces `sub/assets/img.png`, so source and
target paths differ from the claimed ones. -/
theorem C1_counterexample :
    replaceAssets "assets/sub/assets/img.png" = "sub/img.png"
    ∧ stripLeadingAssetsClaim "assets/sub/assets/img.png" = "sub/assets/img.png"
    ∧ assetSourcePath "notes/assets" "assets/sub/assets/img.png"
        = "notes/assets/sub/img.png"
    ∧ assetTargetPath "docs/posts/assets" "assets/sub/assets/img.png"
        = "docs/posts/assets/sub/img.png" :=
  ⟨by decide, by decide, by decide, by decide⟩

/-- Claim C1, amended: asset linking removes every left-to-right occurrence
of the substring `assets/` from each whitelist path (Python `str.replace`
semantics, characterized by the first three conjuncts: a path without an
occurrence is unchanged, a leading occurrence is removed and the scan
resumes after it, and a non-matching head character is kept); when the ONLY
occurrence is the leading segment this agrees with the claim's leading-only
strip; source and target are the respective directories joined with the
same stripped path. -/
theorem C1_thm : ∀ (p : String),
    (strHasSub p "assets/" = false → replaceAssets p = p)
    ∧ (∀ l2 : List Char, p.toList = "assets/".toList ++ l2 →
        replaceAssets p = replaceAssets (String.mk l2))
    ∧ (∀ (c : Char) (cs : List Char), p.toList = c :: cs →
        strLeads p "assets/" = false →
        replaceAssets p = String.mk (c :: (replaceAssets (String.mk cs)).toList))
    ∧ (strLeads p "assets/" = true →
        strHasSub (String.mk (p.toList.drop 7)) "assets/" = false →
        replaceAssets p = stripLeadingAssetsClaim p)
    ∧ (∀ d : String, assetSourcePath d p = d ++ "/" ++ replaceAssets p
        ∧ assetTargetPath d p = d ++ "/" ++ replaceAssets p) := by
  intro p
  refine ⟨?_, replaceAssets_append p, ?_, ?_, fun d => ⟨rfl, rfl⟩⟩
  · intro h
    show String.mk (pyReplaceGen "assets/".toList "".toList p.toList.length p.toList) = p
    rw [pyReplaceGen_of_hasSub_false "assets/".toList "".toList p.toList.length p.toList h]
    rfl
  · intro c cs hp h
    show String.mk (pyReplaceGen "assets/".toList "".toList p.toList.length p.toList)
        = String.mk (c ::
            (String.mk (pyReplaceGen "assets/".toList "".toList cs.length cs)).toList)
    rw [hp]
    have hmiss : leadsWith "assets/".toList (c :: cs) = false := by
      rw [← hp]
      exact h
    rw [show (c :: cs).length = cs.length + 1 from rfl]
    rw [pyReplaceGen_head_miss "assets/".toList "".toList c cs cs.length hmiss]
    rfl
  · intro h1 h2
    obtain ⟨l2, hl⟩ := (leadsWith_iff "assets/".toList p.toList).mp h1
    have hdrop : p.toList.drop 7 = l2 := by
      rw [hl]
      exact List.drop_left "assets/".toList l2
    rw [replaceAssets_append p l2 hl]
    rw [hdrop] at h2
    unfold stripLeadingAssetsClaim
    rw [if_pos (show strLeads p "assets/" = true from h1), hdrop]
    show String.mk (pyReplaceGen "assets/".toList "".toList l2.length l2) = String.mk l2
    rw [pyReplaceGen_of_hasSub_false "assets/".toList "".toList l2.length l2 h2]

/-- Witness for C1: concrete instances of the hypothesis-bearing conjuncts. -/
theorem C1_witness :
    strHasSub "img.png" "assets/" = false
    ∧ replaceAssets "img.png" = "img.png"
    ∧ strLeads "assets/img.png" "assets/" = true
    ∧ replaceAssets "assets/img.png" = stripLeadingAssetsClaim "assets/img.png" :=
  ⟨by decide, (C1_thm "img.png").1 (by decide), by decide,
    (C1_thm "assets/img.png").2.2.2.1 (by decide) (by decide)⟩

/-! ## Claim C5 -/

theorem findEndIdx_one : ∀ (el : List (Nat × String)),
    findEndIdx el 1
      = (((el.filter (fun p => pyStrip p.2 == "---"))[0]?).map Prod.fst).getD 0
  | [] => rfl
  | (i, line) :: rest => by
    cases h : pyStrip line == "---" with
    | true => simp [findEndIdx, h, List.filter_cons]
    | false => simp [findEndIdx, h, List.filter_cons, findEndIdx_one rest]

theorem findEndIdx_zero : ∀ (el : List (Nat × String)),
    findEndIdx el 0
      = (((el.filter (fun p => pyStrip p.2 == "---"))[1]?).map Prod.fst).getD 0
  | [] => rfl
  | (i, line) :: rest => by
    cases h : pyStrip line == "---" with
    | true => simp [findEndIdx, h, List.filter_cons, findEndIdx_one rest]
    | false => simp [findEndIdx, h, List.filter_cons, findEndIdx_zero rest]

theorem filter_enumFrom_idx_ge : ∀ (ls : List String) (n k : Nat) (q : Nat × String),
    ((List.enumFrom n ls).filter (fun p => pyStrip p.2 == "---"))[k]? = some q →
    n + k ≤ q.1
  | [], n, k, q => by simp
  | l :: ls, n, k, q => by
    rw [List.enumFrom_cons]
    cases h : pyStrip l == "---" with
    | true =>
      rw [List.filter_cons, if_pos (by simpa using h)]
      cases k with
      | zero =>
        intro hq
        rw [List.getElem?_cons_zero] at hq
        injection hq with hq
        subst hq
        simp
      | succ k =>
        intro hq
        rw [List.getElem?_cons_succ] at hq
        have := filter_enumFrom_idx_ge ls (n + 1) k q hq
        omega
    | false =>
      rw [List.filter_cons, if_neg (by simpa using h)]
      intro hq
      have := filter_enumFrom_idx_ge ls (n + 1) k q hq
      omega

/-- The body-selection loop of `extract_assets_from_file` equals the
declarative rule: with fewer than two lines stripping to `---` the whole
text is the body, otherwise everything after the second such line. -/
theorem bodyLines_eq_spec (lines : List String) :
    bodyLines lines = bodyLinesSpec lines := by
  unfold bodyLines bodyLinesSpec
  rw [findEndIdx_zero lines.enum]
  cases h : (lines.enum.filter (fun p => pyStrip p.2 == "---"))[1]? with
  | none => simp
  | some q =>
    have hge : 0 + 1 ≤ q.1 :=
      filter_enumFrom_idx_ge lines 0 1 q
        (by rw [show List.enumFrom 0 lines = lines.enum from rfl]; exact h)
    simp only [Option.map_some', Option.getD_some]
    rw [if_pos (by omega : q.1 > 0)]

/-- Claim C5 as stated is FALSE: a text that does not begin with a
frontmatter block is not always treated whole.  The text
`[x](assets/p.png)\n---\n---\nrest` has no frontmatter (it does not start
with `---` and `parse_frontmatter` is empty), yet extraction discards every
line up to the second `---` and returns nothing, whereas treating the
entire text as body would return the asset link. -/
theorem C5_counterexample :
    leadsWith "---".toList "[x](assets/p.png)\n---\n---\nrest".toList = false
    ∧ parse_frontmatter "[x](assets/p.png)\n---\n---\nrest" = []
    ∧ extract_assets_from_file "[x](assets/p.png)\n---\n---\nrest" = []
    ∧ (splitlines "[x](assets/p.png)\n---\n---\nrest").flatMap lineAssetLinks
        = ["assets/p.png"] :=
  ⟨by decide, by decide, by decide, by decide⟩

/-- Claim C5, amended: the body is the text after the line at which the
count of lines whose trimmed content equals `---` reaches two, and the
ENTIRE text exactly when fewer than two such lines exist — regardless of
whether a frontmatter block opens the file. -/
theorem C5_thm :
    (∀ (content : String),
      extract_assets_from_file content
        = (bodyLinesSpec (splitlines content)).flatMap lineAssetLinks)
    ∧ (∀ (lines : List String), bodyLines lines = bodyLinesSpec lines) := by
  constructor
  · intro content
    unfold extract_assets_from_file
    rw [bodyLines_eq_spec]
  · exact bodyLines_eq_spec

/-! ## Claim C10 -/

/-- Claim C10 as stated is FALSE for the "followed by whitespace" half: a
first line `--- ` (trailing blank) still satisfies the raw prefix test
`startswith("---")`, so `parse_frontmatter` parses the block instead of
returning an empty mapping, and the note IS classified public. -/
theorem C10_counterexample :
    pyStrip "--- " = "---"
    ∧ parse_frontmatter "--- \npublic: true\n---\nbody" = [("public", "true")]
    ∧ is_public_note "--- \npublic: true\n---\nbody" = true :=
  ⟨by decide, by decide, by decide⟩

/-- Claim C10, amended: the two opening-marker tests differ as claimed, but
the divergence arises for a first line stripping to `---` that fails the
raw PREFIX test (e.g. `---` preceded by whitespace; a trailing blank does
not break the prefix test): such a file yields an empty frontmatter mapping
(hence neither public nor now-tagged), while extraction still counts the
first line as a separator and drops everything up to and including the
second separator line. -/
theorem C10_thm : ∀ (c l0 : String) (rest : List String),
    splitlines c = l0 :: rest →
    pyStrip l0 = "---" →
    leadsWith "---".toList c.toList = false →
    parse_frontmatter c = []
    ∧ is_public_note c = false
    ∧ has_now_tag c = false
    ∧ (∀ (j : Nat) (s : String),
        ((l0 :: rest).enum.filter (fun p => pyStrip p.2 == "---"))[1]? = some (j, s) →
        extract_assets_from_file c = ((l0 :: rest).drop (j + 1)).flatMap lineAssetLinks) := by
  intro c l0 rest hsplit hstrip hlead
  have hparse : parse_frontmatter c = [] := by
    simp only [parse_frontmatter, hlead, Bool.false_eq_true, if_false]
  refine ⟨hparse, ?_, ?_, ?_⟩
  · unfold is_public_note
    rw [hparse]
    decide
  · unfold has_now_tag
    rw [hparse]
    decide
  · intro j s hj
    unfold extract_assets_from_file
    rw [bodyLines_eq_spec, hsplit]
    unfold bodyLinesSpec
    rw [hj]

/-- Witness for C10: a note whose first line is `---` preceded by a blank. -/
theorem C10_witness :
    parse_frontmatter " ---\npublic: true\n---\n[x](assets/a.png)" = []
    ∧ is_public_note " ---\npublic: true\n---\n[x](assets/a.png)" = false
    ∧ extract_assets_from_file " ---\npublic: true\n---\n[x](assets/a.png)"
        = ["assets/a.png"] := by
  have h := C10_thm " ---\npublic: true\n---\n[x](assets/a.png)" " ---"
      ["public: true", "---", "[x](assets/a.png)"] (by decide) (by decide) (by decide)
  refine ⟨h.1, h.2.1, ?_⟩
  rw [h.2.2.2 2 "---" (by decide)]
  decide

/-! ## Claim C4 -/

theorem matchLink_some (l : List Char) (t : String) (rest : List Char)
    (h : matchLink l = some (t, rest)) :
    ∃ lbl, l = '[' :: (lbl ++ ']' :: '(' :: (t.toList ++ ')' :: rest))
      ∧ (∀ c ∈ lbl, c ≠ ']') ∧ (∀ c ∈ t.toList, c ≠ ')') := by
  rw [matchLink.eq_def] at h
  split at h
  case h_2 => exact Option.noConfusion h
  case h_1 rest0 =>
    split at h
    case h_2 => exact Option.noConfusion h
    case h_1 rest2 heq =>
      split at h
      case h_2 => exact Option.noConfusion h
      case h_1 rest3 heq2 =>
        injection h with h
        injection h with h1 h2
        subst h2
        have ht : t.toList = rest2.takeWhile (fun c => c != ')') := by
          rw [← h1]
          rfl
        generalize hg : rest0.takeWhile (fun c => c != ']') = lbl
        have hrest0 : rest0 = lbl ++ ']' :: '(' :: rest2 := by
          rw [← hg]
          conv_lhs => rw [← List.takeWhile_append_dropWhile (fun c => c != ']') rest0]
          rw [heq]
        have hrest2 : rest2 = t.toList ++ ')' :: rest3 := by
          rw [ht]
          conv_lhs => rw [← List.takeWhile_append_dropWhile (fun c => c != ')') rest2]
          rw [heq2]
        refine ⟨lbl, ?_, ?_, ?_⟩
        · show ('[' :: rest0 : List Char) = _
          rw [hrest0, hrest2]
        · intro c hc
          rw [← hg] at hc
          have := List.mem_takeWhile_imp hc
          simpa using this
        · intro c hc
          rw [ht] at hc
          have := List.mem_takeWhile_imp hc
          simpa using this

theorem matchLink_length (l : List Char) (t : String) (rest : List Char)
    (h : matchLink l = some (t, rest)) : rest.length < l.length := by
  obtain ⟨lbl, hl, -, -⟩ := matchLink_some l t rest h
  rw [hl]
  simp only [List.length_cons, List.length_append]
  omega

theorem findLinksAux_mem : ∀ (n : Nat) (l : List Char) (t : String),
    l.length ≤ n → t ∈ findLinksAux n l →
    ∃ pre lbl post,
      l = pre ++ '[' :: (lbl ++ ']' :: '(' :: (t.toList ++ ')' :: post))
      ∧ (∀ c ∈ lbl, c ≠ ']') ∧ (∀ c ∈ t.toList, c ≠ ')')
  | 0, l, t, hlen, hmem => by simp [findLinksAux] at hmem
  | n + 1, [], t, hlen, hmem => by simp [findLinksAux] at hmem
  | n + 1, c :: cs, t, hlen, hmem => by
    cases hm : matchLink (c :: cs) with
    | some pr =>
      obtain ⟨t0, rest⟩ := pr
      simp only [findLinksAux, hm] at hmem
      rcases List.mem_cons.mp hmem with h | h
      · subst h
        obtain ⟨lbl, hl, hlbl, htgt⟩ := matchLink_some _ _ _ hm
        exact ⟨[], lbl, rest, by simpa using hl, hlbl, htgt⟩
      · have hrest : rest.length ≤ n := by
          have hml := matchLink_length _ _ _ hm
          simp only [List.length_cons] at hlen hml
          omega
        obtain ⟨pre, lbl, post, hl, hlbl, htgt⟩ := findLinksAux_mem n rest t hrest h
        obtain ⟨lbl0, hl0, -, -⟩ := matchLink_some _ _ _ hm
        refine ⟨'[' :: (lbl0 ++ ']' :: '(' :: (t0.toList ++ ')' :: pre)), lbl, post,
          ?_, hlbl, htgt⟩
        rw [hl0, hl]
        simp
    | none =>
      simp only [findLinksAux, hm] at hmem
      have hcs : cs.length ≤ n := by
        simp only [List.length_cons] at hlen
        omega
      obtain ⟨pre, lbl, post, hl, hlbl, htgt⟩ := findLinksAux_mem n cs t hcs hmem
      exact ⟨c :: pre, lbl, post, by rw [hl]; simp, hlbl, htgt⟩

/-- Claim C4: extraction scans each body line with the pattern
`[<anything but ]>](<anything but )>)` per line and retains exactly the
matched targets containing the literal case-sensitive substring `assets`,
with duplicates preserved in document order (first conjunct); every reported
target arises from such a bracketed occurrence on its line, with no `]` in
the label and no `)` in the target (second conjunct); on the spec's example
body the result is exactly `["assets/a.png"]` (third conjunct). -/
theorem C4_thm :
    (∀ (text : String),
      extract_assets_from_file text
        = ((bodyLines (splitlines text)).flatMap reFindAll).filter
            (fun t => strHasSub t "assets"))
    ∧ (∀ (line t : String), t ∈ reFindAll line →
        ∃ pre lbl post,
          line.toList = pre ++ '[' :: (lbl ++ ']' :: '(' :: (t.toList ++ ')' :: post))
          ∧ (∀ c ∈ lbl, c ≠ ']') ∧ (∀ c ∈ t.toList, c ≠ ')'))
    ∧ extract_assets_from_file "[img](assets/a.png) and [site](https://example.com)"
        = ["assets/a.png"] := by
  refine ⟨?_, ?_, by decide⟩
  · intro text
    unfold extract_assets_from_file lineAssetLinks
    rw [List.filter_flatMap]
  · intro line t hmem
    exact findLinksAux_mem line.toList.length line.toList t (le_refl _) hmem

/-- Witness for C4: the per-line decomposition at a concrete line and
target. -/
theorem C4_witness :
    extract_assets_from_file "[img](assets/a.png) and [site](https://example.com)"
      = ((bodyLines (splitlines
            "[img](assets/a.png) and [site](https://example.com)")).flatMap
          reFindAll).filter (fun t => strHasSub t "assets")
    ∧ ∃ pre lbl post,
        "[img](assets/a.png)".toList
          = pre ++ '[' :: (lbl ++ ']' :: '(' :: ("assets/a.png".toList ++ ')' :: post))
        ∧ (∀ c ∈ lbl, c ≠ ']') ∧ (∀ c ∈ "assets/a.png".toList, c ≠ ')') :=
  ⟨C4_thm.1 _, C4_thm.2.1 "[img](assets/a.png)" "assets/a.png" (by decide)⟩

/-! ## Claim C3 -/

/-- Claim C3: whitelist aggregation returns a lexicographically sorted (the
linear order on strings), duplicate-free sequence, and the output is
invariant under permuting the walked notes. -/
theorem C3_thm : ∀ (notes other : List String), notes.Perm other →
    collect_public_assets notes = collect_public_assets other
    ∧ List.Sorted (fun a b => a ≤ b) (collect_public_assets notes)
    ∧ (collect_public_assets notes).Nodup := by
  intro notes other hperm
  have key : ∀ l : List String,
      List.Sorted (fun a b => strLeB a b = true)
        (List.insertionSort (fun a b => strLeB a b = true) l) :=
    fun l => List.sorted_insertionSort _ l
  unfold collect_public_assets
  refine ⟨?_, ?_, ?_⟩
  · apply List.eq_of_perm_of_sorted (r := fun a b => strLeB a b = true)
    · refine ((List.perm_insertionSort _ _).trans ?_).trans
        (List.perm_insertionSort _ _).symm
      exact ((List.Perm.filter is_public_note hperm).flatMap_right
        extract_assets_from_file).dedup
    · exact key _
    · exact key _
  · exact List.Pairwise.imp (fun {a b} h => (strLeB_iff a b).mp h) (key _)
  · exact ((List.perm_insertionSort _ _).symm).nodup (List.nodup_dedup _)

/-- Witness for C3: the spec's example, two public notes referencing
`assets/a.png` and `assets/b.png` plus a duplicate reference, walked in two
different orders. -/
theorem C3_witness :
    (["---\npublic: true\n---\n[a](assets/a.png)\n",
      "---\npublic: true\n---\n[b](assets/b.png)\n[a](assets/a.png)\n"] : List String).Perm
      ["---\npublic: true\n---\n[b](assets/b.png)\n[a](assets/a.png)\n",
       "---\npublic: true\n---\n[a](assets/a.png)\n"]
    ∧ collect_public_assets
        ["---\npublic: true\n---\n[a](assets/a.png)\n",
         "---\npublic: true\n---\n[b](assets/b.png)\n[a](assets/a.png)\n"]
      = collect_public_assets
        ["---\npublic: true\n---\n[b](assets/b.png)\n[a](assets/a.png)\n",
         "---\npublic: true\n---\n[a](assets/a.png)\n"]
    ∧ collect_public_assets
        ["---\npublic: true\n---\n[a](assets/a.png)\n",
         "---\npublic: true\n---\n[b](assets/b.png)\n[a](assets/a.png)\n"]
      = ["assets/a.png", "assets/b.png"] :=
  ⟨by decide, (C3_thm _ _ (by decide)).1, by decide⟩

end Bloggy
